import Mathlib

/-!
Verification development for the fueli_petrol ingestion pipeline.

Each definition below is a shallow embedding of a function of the
repository (file and function named in its doc comment).  Strings are
modelled as `List Char` in the core functions, numeric values as `ℚ`
(decimal string parsing is exact over `ℚ`), and pandas/IEEE floating
values as `PFloat` (a rational plus infinities and NaN).
-/

attribute [local semireducible] Rat.add Rat.mul Rat.inv Rat.sub

/-- Python `str.strip()` whitespace test (the whitespace characters that
can actually occur in this pipeline's data). -/
def isPyWs (c : Char) : Bool :=
  c = ' ' || c = '\t' || c = '\n' || c = '\x0d' || c = Char.ofNat 11 ||
  c = Char.ofNat 12 || c = Char.ofNat 160

/-- Python `str.strip()`: drop leading and trailing whitespace. -/
def pyStrip (l : List Char) : List Char :=
  ((l.dropWhile isPyWs).reverse.dropWhile isPyWs).reverse

/-- Python `str.strip()` on `String`. -/
def pyStripStr (s : String) : String := ⟨pyStrip s.data⟩

/-- Fuel-indexed worker for `replaceAll` (fuel bounds the scan length so
that the kernel can evaluate it). -/
def replaceAllAux (fuel : Nat) (pat rep : List Char) : List Char → List Char
  | [] => []
  | c :: rest =>
    match fuel with
    | 0 => c :: rest
    | fuel + 1 =>
      if pat.isPrefixOf (c :: rest) then
        rep ++ replaceAllAux fuel pat rep ((c :: rest).drop pat.length)
      else
        c :: replaceAllAux fuel pat rep rest

/-- Python `str.replace(pat, rep)`: replace every non-overlapping
occurrence of `pat`, scanning left to right (for non-empty `pat`). -/
def replaceAll (pat rep : List Char) (s : List Char) : List Char :=
  if pat.isEmpty then s else replaceAllAux s.length pat rep s

/-- Python `str.split(sep)` for a one-character separator. -/
def splitOnChar (sep : Char) : List Char → List (List Char)
  | [] => [[]]
  | c :: rest =>
    match splitOnChar sep rest with
    | [] => [[]]
    | h :: t => if c = sep then [] :: h :: t else (c :: h) :: t

/-- Python substring test `pat in s`. -/
def containsSub (pat : List Char) : List Char → Bool
  | [] => pat.isEmpty
  | c :: rest => pat.isPrefixOf (c :: rest) || containsSub pat rest

/-- Decimal digit run to a natural number. -/
def digitsToNat (l : List Char) : Nat :=
  l.foldl (fun n c => 10 * n + (c.toNat - 48)) 0

/-- Exponent suffix of a Python float literal (`e`/`E` already consumed):
optional sign then a non-empty digit run, nothing after. -/
def parseExpPart (m : ℚ) (r : List Char) : Option ℚ :=
  let (neg, r1) :=
    match r with
    | '-' :: t => (true, t)
    | '+' :: t => (false, t)
    | _ => (false, r)
  let ds := r1.takeWhile Char.isDigit
  if ds.isEmpty || !(r1.dropWhile Char.isDigit).isEmpty then none
  else some (if neg then m / 10 ^ digitsToNat ds else m * 10 ^ digitsToNat ds)

/-- Model of Python `float(s)` on a numeric literal: optional sign,
digits with an optional point, optional exponent; `None` when the string
is not such a literal (`float` raises `ValueError` there). -/
def parseFloat? (s : List Char) : Option ℚ :=
  let (sign, s1) :=
    match s with
    | '-' :: t => ((-1 : ℚ), t)
    | '+' :: t => ((1 : ℚ), t)
    | _ => ((1 : ℚ), s)
  let ip := s1.takeWhile Char.isDigit
  let r1 := s1.dropWhile Char.isDigit
  match r1 with
  | [] => if ip.isEmpty then none else some (sign * digitsToNat ip)
  | '.' :: r2 =>
    let fp := r2.takeWhile Char.isDigit
    let r3 := r2.dropWhile Char.isDigit
    if ip.isEmpty && fp.isEmpty then none
    else
      let mant : ℚ := sign * ((digitsToNat ip : ℚ) + digitsToNat fp / 10 ^ fp.length)
      match r3 with
      | [] => some mant
      | 'e' :: r4 => parseExpPart mant r4
      | 'E' :: r4 => parseExpPart mant r4
      | _ => none
  | 'e' :: r4 => if ip.isEmpty then none else parseExpPart (sign * digitsToNat ip) r4
  | 'E' :: r4 => if ip.isEmpty then none else parseExpPart (sign * digitsToNat ip) r4
  | _ => none

/-- `migrate_posta_data.clean_numeric_string`, symbol-stripping phase:
the chain of `str.replace` calls removing `$`, `Ltr`, `M3`, `$/Ltr`,
`/`, spaces and non-breaking spaces, in the source's order. -/
def stripSymbols (s : List Char) : List Char :=
  replaceAll [Char.ofNat 160] []
    (replaceAll [' '] []
      (replaceAll ['/'] []
        (replaceAll ['$', '/', 'L', 't', 'r'] []
          (replaceAll ['M', '3'] []
            (replaceAll ['L', 't', 'r'] []
              (replaceAll ['$'] [] s))))))

/-- `migrate_posta_data.clean_numeric_string`, separator phase: if both
`.` and `,` occur, drop the dots and turn the comma into a dot; if only
`.` occurs more than once, drop the dots; if only `,` occurs, turn it
into a dot. -/
def disambiguateSeparators (v : List Char) : List Char :=
  if '.' ∈ v ∧ ',' ∈ v then
    replaceAll [','] ['.'] (replaceAll ['.'] [] v)
  else if '.' ∈ v then
    if 1 < v.count '.' then replaceAll ['.'] [] v else v
  else if ',' ∈ v then
    replaceAll [','] ['.'] v
  else v

/-- `migrate_posta_data.clean_numeric_string` on a string input: strip
currency/unit symbols, disambiguate separators, then `float(value.strip())`
(`None` on `ValueError`). -/
def clean_numeric_string (s : String) : Option ℚ :=
  parseFloat? (pyStrip (disambiguateSeparators (stripSymbols s.data)))

/-- A pandas/NumPy floating value: a finite rational, an infinity, or
NaN (pandas encodes a missing numeric value as NaN). -/
inductive PFloat where
  | fin : ℚ → PFloat
  | posInf : PFloat
  | negInf : PFloat
  | nan : PFloat
deriving DecidableEq, Repr

/-- Whether a pandas value is missing (`pd.isna`). -/
def PFloat.isNan : PFloat → Bool
  | .nan => true
  | _ => false

/-- IEEE-754 style division as NumPy performs it on a pandas column:
a finite value divided by zero gives a signed infinity (NaN for 0/0),
and NaN propagates. -/
def PFloat.div : PFloat → PFloat → PFloat
  | .nan, _ => .nan
  | _, .nan => .nan
  | .fin a, .fin b =>
    if b = 0 then
      if 0 < a then .posInf else if a < 0 then .negInf else .nan
    else .fin (a / b)
  | .fin _, .posInf => .fin 0
  | .fin _, .negInf => .fin 0
  | .posInf, .fin b => if 0 ≤ b then .posInf else .negInf
  | .negInf, .fin b => if 0 ≤ b then .negInf else .posInf
  | .posInf, .posInf => .nan
  | .posInf, .negInf => .nan
  | .negInf, .posInf => .nan
  | .negInf, .negInf => .nan

/-- `migrate_posta_data.process_excel_xml_file`, line 96:
`ppu = importe / volumen if volumen != 0 else 0` (plain Python floats,
parsed by `float`). -/
def xmlPpu (importe volumen : ℚ) : ℚ :=
  if volumen ≠ 0 then importe / volumen else 0

/-- `migrate_posta_data.process_excel_file`, lines 367-368: when the
`ppu` column was not supplied by the source, it is filled with the
unguarded pandas division `result['importe'] / result['volumen']`;
a supplied `ppu` value is kept as is. -/
def postaExcelPpu (supplied : Option PFloat) (importe volumen : PFloat) : PFloat :=
  match supplied with
  | some p => p
  | none => PFloat.div importe volumen

/-- `consolidate_data.process_excel_file`, lines 167-186: when no `PPU`
column exists, `PPU` is 0 by default and `Importe / Volumen` exactly on
the rows where both are nonzero; the trailing `fillna({'PPU': 0})` turns
any NaN produced by the division back into 0. -/
def consolidatePpu (supplied : Option PFloat) (importe volumen : PFloat) : PFloat :=
  match supplied with
  | some p => if p.isNan then .fin 0 else p
  | none =>
    match importe, volumen with
    | .fin i, .fin v => if v ≠ 0 ∧ i ≠ 0 then .fin (i / v) else .fin 0
    | _, _ => .fin 0

/-- `consolidate_data.process_excel_file`, line 176:
`result.dropna(subset=['Importe', 'Volumen'], how='all')` — a row is
dropped exactly when `Importe` and `Volumen` are both missing. -/
def consolidateRowDropped (importe volumen : PFloat) : Bool :=
  importe.isNan && volumen.isNan

/-- `migrate_posta_data.process_excel_file`, line 373:
`result.dropna(subset=['fecha', 'volumen', 'importe'])` — the default
`how='any'` drops a row when any of date, volume or amount is missing. -/
def postaExcelRowDropped (fecha : Option String) (volumen importe : PFloat) : Bool :=
  fecha.isNone || volumen.isNan || importe.isNan

/-- `migrate_posta_data.process_excel_file`, lines 376-383: the product
mapping table. -/
def postaProductTable : List (String × String) :=
  [("NS XXI", "GNC"), ("INFINIA", "INFINIA"), ("D.DIESEL500", "DIESEL 500"),
   ("GO-INFINIA DIESEL", "INFINIA DIESEL"), ("SUPER", "SUPER"), ("DIESEL", "DIESEL")]

/-- `migrate_posta_data.process_excel_file`, line 384:
`product_mapping.get(str(x).strip(), x)` — look the trimmed label up in
the table and keep the original label on a miss. -/
def postaProductMap (x : String) : String :=
  match postaProductTable.lookup (pyStripStr x) with
  | some y => y
  | none => x

/-- `migrate_petrol_data.standardize_petrol_dataframe`, lines 34-40: the
product mapping table of the petrol migration. -/
def petrolProductTable : List (String × String) :=
  [("NS XXI", "GNC"), ("INFINIA", "INFINIA"), ("D.DIESEL500", "DIESEL 500"),
   ("GO-INFINIA DIESEL", "INFINIA DIESEL")]

/-- `migrate_petrol_data.standardize_petrol_dataframe`, line 40:
`df['producto'].map(product_mapping)` — a pandas `Series.map` with a
dict and no default maps every label absent from the table to NaN
(modelled as `none`), with no trimming. -/
def petrolProductMap (x : String) : Option String :=
  petrolProductTable.lookup x

/-- `migrate_petrol_data.standardize_petrol_dataframe`, line 47:
`df.dropna(subset=['fecha', 'pico', 'producto', 'volumen', 'importe'])`
— the row is dropped when any of these five is missing. -/
def petrolRowDropped (fecha pico : Option String) (producto : Option String)
    (volumen importe : PFloat) : Bool :=
  fecha.isNone || pico.isNone || producto.isNone || volumen.isNan || importe.isNan

/-- Regex `\s` whitespace test (the core ASCII whitespace class). -/
def isReWs (c : Char) : Bool :=
  c = ' ' || c = '\t' || c = '\n' || c = '\x0d' || c = Char.ofNat 11 || c = Char.ofNat 12

/-- ASCII letter test, the regex class `[a-zA-Z]`. -/
def isAsciiLetter (c : Char) : Bool :=
  ('a' ≤ c && c ≤ 'z') || ('A' ≤ c && c ≤ 'Z')

/-- `re.search(r'(\d+)\s*([a-zA-Z])?', value)` as used by
`consolidate_data.extract_surtidor_manguera`: find the first digit run,
skip whitespace, and optionally capture one following ASCII letter. -/
def regexPumpNozzle : List Char → Option (List Char × Option Char)
  | [] => none
  | c :: rest =>
    if c.isDigit then
      let ds := (c :: rest).takeWhile Char.isDigit
      let r1 := ((c :: rest).dropWhile Char.isDigit).dropWhile isReWs
      match r1 with
      | c2 :: _ => if isAsciiLetter c2 then some (ds, some c2) else some (ds, none)
      | [] => some (ds, none)
    else regexPumpNozzle rest

/-- `consolidate_data.extract_surtidor_manguera`, lines 55-72: try a
slash split into exactly two trimmed parts first; otherwise take a
leading digit run as the pump and an optional trailing letter as the
nozzle, the nozzle defaulting to `'a'`; `(None, None)` when neither
works. -/
def extract_surtidor_manguera (s : String) : Option (String × String) :=
  match splitOnChar '/' s.data with
  | [a, b] => some (⟨pyStrip a⟩, ⟨pyStrip b⟩)
  | _ =>
    match regexPumpNozzle s.data with
    | some (ds, some c) => some (⟨ds⟩, ⟨[c]⟩)
    | some (ds, none) => some (⟨ds⟩, "a")
    | none => none

/-- `consolidate_data.find_data_start`, line 26: the fixed header
vocabulary. -/
def commonHeaders : List String :=
  ["Fecha", "Pico", "Manguera", "Volumen", "Importe", "Surt", "Mang", "Fecha y Hora"]

/-- Whether one grid cell (with `none` for NaN) is a header hit: present
and, once trimmed, exactly one of the `commonHeaders`. -/
def cellIsHeader : Option String → Bool
  | none => false
  | some v => commonHeaders.contains (pyStripStr v)

/-- Number of header hits in a row (`consolidate_data.find_data_start`
matches a header against the row's trimmed non-null cells). -/
def headerHits (row : List (Option String)) : Nat :=
  (row.filter cellIsHeader).length

/-- Whether a row of the grid contains any header hit. -/
def rowHasHeader (row : List (Option String)) : Bool :=
  row.any cellIsHeader

/-- The scan of `consolidate_data.find_data_start`: index of the first
row containing a known header token, if any. -/
def findHeaderIdx : List (List (Option String)) → Option Nat
  | [] => none
  | r :: t => if rowHasHeader r then some 0 else (findHeaderIdx t).map (· + 1)

/-- `consolidate_data.find_data_start`, lines 23-34: index of the first
row containing a known header token, 0 when no row does. -/
def find_data_start (grid : List (List (Option String))) : Nat :=
  (findHeaderIdx grid).getD 0

/-- One skip-depth candidate of the header search in
`migrate_posta_data.process_excel_file`: its column labels and, for each
of its data rows, the nullness of each cell (`true` = null). -/
structure SheetCandidate where
  columns : List String
  rowsNull : List (List Bool)
deriving DecidableEq, Repr

/-- Upper-case a string the way Python `str.upper()` does on these ASCII
labels. -/
def upperStr (s : String) : String := ⟨s.data.map Char.toUpper⟩

/-- `' '.join(columns)` on upper-cased column labels. -/
def joinedColumns (cols : List String) : List Char :=
  (List.intercalate [' '] (cols.map fun c => (upperStr c).data))

/-- `migrate_posta_data.process_excel_file`, lines 257-278: the score of
one skip-depth candidate — +2 for a `FECHA` column, +2 each for the
volume, amount and product keyword families, +1 for the pump family
(`PICO`/`SURTIDOR`), +2 when the table has at least 4 columns, and +1
when none of the first five data rows is entirely null. -/
def scoreCandidate (c : SheetCandidate) : Nat :=
  let cols := c.columns.map upperStr
  let joined := joinedColumns c.columns
  (if cols.any fun col => containsSub "FECHA".data col.data then 2 else 0) +
  (if containsSub "VOLUMEN".data joined || containsSub "LITROS".data joined then 2 else 0) +
  (if containsSub "IMPORTE".data joined || containsSub "MONTO".data joined then 2 else 0) +
  (if containsSub "PRODUCTO".data joined || containsSub "COMBUSTIBLE".data joined then 2 else 0) +
  (if containsSub "PICO".data joined || containsSub "SURTIDOR".data joined then 1 else 0) +
  (if 4 ≤ c.columns.length then 2 else 0) +
  (if (c.rowsNull.take 5).any (fun r => r.all id) then 0 else 1)

/-- The claim's scoring rule, stated from the spec's words: +2 per
canonical keyword family represented among the columns — date, volume,
amount, product and pump alike — +2 for width at least 4, and +1 when no
entirely empty row occurs among the first five data rows. -/
def scoreClaimed (c : SheetCandidate) : Nat :=
  let cols := c.columns.map upperStr
  let joined := joinedColumns c.columns
  (if cols.any fun col => containsSub "FECHA".data col.data then 2 else 0) +
  (if containsSub "VOLUMEN".data joined || containsSub "LITROS".data joined then 2 else 0) +
  (if containsSub "IMPORTE".data joined || containsSub "MONTO".data joined then 2 else 0) +
  (if containsSub "PRODUCTO".data joined || containsSub "COMBUSTIBLE".data joined then 2 else 0) +
  (if containsSub "PICO".data joined || containsSub "SURTIDOR".data joined then 2 else 0) +
  (if 4 ≤ c.columns.length then 2 else 0) +
  (if (c.rowsNull.take 5).any (fun r => r.all id) then 0 else 1)

/-- One iteration of the candidate loop of
`migrate_posta_data.process_excel_file`, lines 257-283: adopt the
candidate only when its score strictly exceeds the best so far. -/
def selectStep (best : Option SheetCandidate) (c : SheetCandidate) : Option SheetCandidate :=
  match best with
  | none => some c
  | some b => if scoreCandidate b < scoreCandidate c then some c else some b

/-- `migrate_posta_data.process_excel_file`, lines 253-283: the loop
keeping the first candidate whose score strictly exceeds the best so
far (so the first-seen candidate wins ties). -/
def selectBest (cands : List SheetCandidate) : Option SheetCandidate :=
  cands.foldl selectStep none

/-- Decimal digits of a natural number, zero-padded on the left to the
given width. -/
def padNat (width n : Nat) : List Char :=
  let ds := Nat.toDigits 10 n
  List.replicate (width - ds.length) '0' ++ ds

/-- Leap-year test of the Gregorian calendar (as `datetime` uses). -/
def isLeapYear (y : Nat) : Bool :=
  (y % 4 = 0 && y % 100 ≠ 0) || y % 400 = 0

/-- Days in a month of the Gregorian calendar. -/
def daysInMonth (y m : Nat) : Nat :=
  if m = 1 || m = 3 || m = 5 || m = 7 || m = 8 || m = 10 || m = 12 then 31
  else if m = 4 || m = 6 || m = 9 || m = 11 then 30
  else if isLeapYear y then 29 else 28

/-- Model of `datetime.strptime(s, '%d/%m/%Y %H:%M:%S')`: day, month,
year, hour, minute, second fields separated exactly as in the format,
with `datetime`'s calendar validation; `none` on `ValueError`. -/
def parseFechaHora (s : String) : Option (Nat × Nat × Nat × Nat × Nat × Nat) :=
  let dayRun := s.data.takeWhile Char.isDigit
  let rest1 := s.data.dropWhile Char.isDigit
  match rest1 with
  | '/' :: r1 =>
    let monRun := r1.takeWhile Char.isDigit
    match r1.dropWhile Char.isDigit with
    | '/' :: r2 =>
      let yearRun := r2.takeWhile Char.isDigit
      match r2.dropWhile Char.isDigit with
      | ' ' :: r3 =>
        let hourRun := r3.takeWhile Char.isDigit
        match r3.dropWhile Char.isDigit with
        | ':' :: r4 =>
          let minRun := r4.takeWhile Char.isDigit
          match r4.dropWhile Char.isDigit with
          | ':' :: r5 =>
            let secRun := r5.takeWhile Char.isDigit
            if r5.dropWhile Char.isDigit ≠ [] then none
            else if dayRun.isEmpty || monRun.isEmpty || yearRun.isEmpty ||
                    hourRun.isEmpty || minRun.isEmpty || secRun.isEmpty then none
            else
              let d := digitsToNat dayRun
              let m := digitsToNat monRun
              let y := digitsToNat yearRun
              let hh := digitsToNat hourRun
              let mi := digitsToNat minRun
              let ss := digitsToNat secRun
              if 1 ≤ m ∧ m ≤ 12 ∧ 1 ≤ d ∧ d ≤ daysInMonth y m ∧
                 hh ≤ 23 ∧ mi ≤ 59 ∧ ss ≤ 59 ∧ yearRun.length ≤ 4 then
                some (d, m, y, hh, mi, ss)
              else none
          | _ => none
        | _ => none
      | _ => none
    | _ => none
  | _ => none

/-- `migrate_posta_data.process_excel_xml_file`, lines 80-85: trim the
product label, then map the two known vendor labels. -/
def xmlProductStd (p : String) : String :=
  let t := pyStripStr p
  if t = "NS XXI" then "GNC"
  else if t = "GO-INFINIA DIESEL" then "INFINIA DIESEL"
  else t

/-- One canonical transaction record as persisted to the `despachos`
table (`migrate_posta_data.standardize_dataframe` column set). -/
structure Despacho where
  fecha : String
  hora : String
  pico : String
  producto : String
  volumen : ℚ
  importe : ℚ
  ppu : ℚ
  sucursal : String
deriving DecidableEq, Repr

/-- Python dict assignment `d[k] = v`: replace the value when the key
exists, append otherwise. -/
def dictInsert (d : List (Nat × String)) (k : Nat) (v : String) : List (Nat × String) :=
  if d.any fun p => p.1 = k then
    d.map fun p => if p.1 = k then (k, v) else p
  else d ++ [(k, v)]

/-- `migrate_posta_data.process_excel_xml_file`, lines 35-54: collect the
cells of a row into `cell_data`, keyed by the cell's `ss:Index`
attribute, skipping cells with no data, no index or an empty value. -/
def buildCellData (cells : List (Option Nat × Option String)) : List (Nat × String) :=
  cells.foldl
    (fun acc c =>
      match c with
      | (some i, some v) => if v = "" then acc else dictInsert acc i v
      | _ => acc)
    []

/-- `migrate_posta_data.process_excel_xml_file`, lines 27-109, one row:
require at least six indexed cells, read date/time, pump, product,
amount and volume from indices 1, 2, 3, 5 and 6, parse the date and the
comma-decimal numerics (skipping the row on failure), standardize the
product, and derive `ppu`; the date and time are kept in the
`YYYY-MM-DD` / `HH:MM:SS` form that `standardize_dataframe` persists. -/
def processXmlRow (cells : List (Option Nat × Option String)) (sucursal : String) :
    Option Despacho :=
  let cd := buildCellData cells
  if cd.length < 6 then none
  else
    match cd.lookup 1, cd.lookup 2, cd.lookup 3, cd.lookup 5, cd.lookup 6 with
    | some fh, some pico, some prod, some imp, some vol =>
      match parseFechaHora fh with
      | none => none
      | some (d, m, y, hh, mi, ss) =>
        match parseFloat? (replaceAll [','] ['.'] imp.data),
              parseFloat? (replaceAll [','] ['.'] vol.data) with
        | some importe, some volumen =>
          some { fecha := ⟨padNat 4 y ++ '-' :: padNat 2 m ++ '-' :: padNat 2 d⟩
               , hora := ⟨padNat 2 hh ++ ':' :: padNat 2 mi ++ ':' :: padNat 2 ss⟩
               , pico := pico
               , producto := xmlProductStd prod
               , volumen := volumen
               , importe := importe
               , ppu := xmlPpu importe volumen
               , sucursal := sucursal }
        | _, _ => none
    | _, _, _, _, _ => none

/-- `migrate_posta_data.process_excel_xml_file`, whole file: the valid
rows, or `None` (file skipped) when no row is valid. -/
def processXmlFileRows (rows : List (List (Option Nat × Option String)))
    (sucursal : String) : Option (List Despacho) :=
  let rs := rows.filterMap fun r => processXmlRow r sucursal
  if rs.isEmpty then none else some rs

/-- `migrate_posta_data.process_folder` and `main`, restricted to the
XML family: concatenate the records of every readable file, in file
order. -/
def runPostaPipeline (files : List (List (List (Option Nat × Option String)) × String)) :
    List Despacho :=
  (files.filterMap fun f => processXmlFileRows f.1 f.2).flatten

/-- `migrate_posta_data.main`, line 493 and `database.migrate_csv_to_db`,
line 68: `to_sql(..., if_exists='replace')` — the persisted corpus is
the new table, whatever was stored before. -/
def persistReplace (_store new : List Despacho) : List Despacho :=
  new

/-- Lower-case a string as SQLite's ASCII-only `LIKE` folding and
Python `str.lower()` do on these ASCII values. -/
def lowerStr (s : String) : String := ⟨s.data.map Char.toLower⟩

/-- Byte-wise lexicographic `≤`, SQLite's ordering on TEXT values. -/
def lexLe : List Char → List Char → Bool
  | [], _ => true
  | _ :: _, [] => false
  | a :: as, b :: bs =>
    if a.toNat < b.toNat then true
    else if b.toNat < a.toNat then false
    else lexLe as bs

/-- SQLite `field LIKE '%pat%'` (ASCII case-insensitive substring). -/
def sqlLikeContains (pat s : String) : Bool :=
  containsSub (lowerStr pat).data (lowerStr s).data

/-- SQLite `field LIKE 'pat%'` (ASCII case-insensitive prefix match). -/
def sqlLikeStarts (pat s : String) : Bool :=
  (lowerStr pat).data.isPrefixOf (lowerStr s).data

/-- A single-or-list filter argument of `database.get_despachos`. -/
inductive StrFilter where
  | one : String → StrFilter
  | many : List String → StrFilter
deriving DecidableEq, Repr

/-- Python truthiness of a filter argument (`if producto:`): absent,
empty-string and empty-list arguments disable the filter. -/
def strFilterActive : Option StrFilter → Bool
  | none => false
  | some (.one s) => s ≠ ""
  | some (.many l) => !l.isEmpty

/-- `database.get_despachos`, lines 79-84: the branch filter — the
special value `posta` (case-insensitively) selects `sucursal LIKE
'Posta%'`, any other value `sucursal LIKE '%organization%'`. -/
def matchesOrganization (org : Option String) (r : Despacho) : Bool :=
  match org with
  | none => true
  | some o =>
    if o = "" then true
    else if lowerStr o = "posta" then sqlLikeStarts "Posta" r.sucursal
    else sqlLikeContains o r.sucursal

/-- `database.get_despachos`, lines 86-93 and 103-110: a single value
filters by SQL `=`, a list by SQL `IN`. -/
def matchesStrFilter (f : Option StrFilter) (field : String) : Bool :=
  match f with
  | none => true
  | some (.one s) => if s = "" then true else field = s
  | some (.many l) => if l.isEmpty then true else l.contains field

/-- `database.get_despachos`, lines 95-101: `fecha >= start_date` and
`fecha <= end_date` as SQLite TEXT comparisons. -/
def matchesDateRange (startDate endDate : Option String) (r : Despacho) : Bool :=
  (match startDate with
   | none => true
   | some d => if d = "" then true else lexLe d.data r.fecha.data) &&
  (match endDate with
   | none => true
   | some d => if d = "" then true else lexLe r.fecha.data d.data)

/-- `database.get_despachos`, lines 72-118: `SELECT * FROM despachos`
with the conjunction of the supplied filters and no ORDER BY clause, so
the rows come back in the table's stored order. -/
def get_despachos (db : List Despacho) (org : Option String)
    (producto : Option StrFilter) (startDate endDate : Option String)
    (pico : Option StrFilter) : List Despacho :=
  db.filter fun r =>
    matchesOrganization org r &&
    matchesStrFilter producto r.producto &&
    matchesDateRange startDate endDate r &&
    matchesStrFilter pico r.pico

/-- Whether a record list is nondecreasing in `fecha` (the order the
claim asserts for query results). -/
def fechaSorted : List Despacho → Bool
  | [] => true
  | [_] => true
  | a :: b :: t => lexLe a.fecha.data b.fecha.data && fechaSorted (b :: t)

theorem count_replaceAllAux_empty (c : Char) (pat : List Char) (hc : c ∉ pat) :
    ∀ (fuel : Nat) (s : List Char), (replaceAllAux fuel pat [] s).count c = s.count c := by
  intro fuel
  induction fuel with
  | zero =>
    intro s
    cases s with
    | nil => rfl
    | cons a t => rfl
  | succ n ih =>
    intro s
    cases s with
    | nil => rfl
    | cons a t =>
      by_cases hp : pat.isPrefixOf (a :: t)
      · have hpre : pat <+: a :: t := List.isPrefixOf_iff_prefix.mp hp
        obtain ⟨u, hu⟩ := hpre
        have hdrop : (a :: t).drop pat.length = u := by
          rw [← hu]; exact List.drop_left pat u
        have hcount : (a :: t).count c = u.count c := by
          rw [← hu, List.count_append, List.count_eq_zero.mpr hc, Nat.zero_add]
        simp only [replaceAllAux, if_pos hp, List.nil_append, hdrop, ih u, hcount]
      · simp only [replaceAllAux, if_neg hp]
        rw [List.count_cons, List.count_cons, ih t]

theorem count_replaceAll_empty (c : Char) (pat : List Char) (hc : c ∉ pat)
    (s : List Char) : (replaceAll pat [] s).count c = s.count c := by
  unfold replaceAll
  split
  · rfl
  · exact count_replaceAllAux_empty c pat hc s.length s

theorem count_stripSymbols (c : Char)
    (h1 : c ≠ '$') (h2 : c ≠ '/') (h3 : c ≠ 'L') (h4 : c ≠ 't') (h5 : c ≠ 'r')
    (h6 : c ≠ 'M') (h7 : c ≠ '3') (h8 : c ≠ ' ') (h9 : c ≠ Char.ofNat 160)
    (s : List Char) : (stripSymbols s).count c = s.count c := by
  unfold stripSymbols
  rw [count_replaceAll_empty c _ (by simp [h9]),
      count_replaceAll_empty c _ (by simp [h8]),
      count_replaceAll_empty c _ (by simp [h2]),
      count_replaceAll_empty c _ (by simp [h1, h2, h3, h4, h5]),
      count_replaceAll_empty c _ (by simp [h6, h7]),
      count_replaceAll_empty c _ (by simp [h3, h4, h5]),
      count_replaceAll_empty c _ (by simp [h1])]

/-- C1: the numeric normalizer first strips currency symbols, unit
suffixes, slashes and spaces, then disambiguates the separators — with
both `.` and `,` present the dots are removed as thousands separators
and the comma becomes the decimal dot; with only `.` present more than
once all dots are removed; with only `,` present it becomes the decimal
dot — and it returns exactly 1234.56 for `$1.234,56`, 1.5 for `1,5` and
12345678.0 for `12.345.678`. -/
theorem clean_numeric_string_spec :
    (∀ s : String,
      clean_numeric_string s =
        parseFloat? (pyStrip (disambiguateSeparators (stripSymbols s.data)))) ∧
    (∀ v : List Char, '.' ∈ v → ',' ∈ v →
      disambiguateSeparators v = replaceAll [','] ['.'] (replaceAll ['.'] [] v)) ∧
    (∀ v : List Char, '.' ∈ v → ',' ∉ v → 1 < v.count '.' →
      disambiguateSeparators v = replaceAll ['.'] [] v) ∧
    (∀ v : List Char, '.' ∉ v → ',' ∈ v →
      disambiguateSeparators v = replaceAll [','] ['.'] v) ∧
    clean_numeric_string "$1.234,56" = some (123456 / 100) ∧
    clean_numeric_string "1,5" = some (3 / 2) ∧
    clean_numeric_string "12.345.678" = some 12345678 := by
  refine ⟨fun s => rfl, ?_, ?_, ?_, by decide, by decide, by decide⟩
  · intro v h1 h2
    simp [disambiguateSeparators, h1, h2]
  · intro v h1 h2 h3
    simp [disambiguateSeparators, h1, h2, h3]
  · intro v h1 h2
    simp [disambiguateSeparators, h1, h2]

theorem clean_numeric_string_spec_witness :
    disambiguateSeparators "1.234,56".data =
      replaceAll [','] ['.'] (replaceAll ['.'] [] "1.234,56".data) ∧
    disambiguateSeparators "12.345.678".data = replaceAll ['.'] [] "12.345.678".data ∧
    disambiguateSeparators "1,5".data = replaceAll [','] ['.'] "1,5".data ∧
    clean_numeric_string "$1.234,56" = some (123456 / 100) :=
  ⟨clean_numeric_string_spec.2.1 _ (by decide) (by decide),
   clean_numeric_string_spec.2.2.1 _ (by decide) (by decide) (by decide),
   clean_numeric_string_spec.2.2.2.1 _ (by decide) (by decide),
   clean_numeric_string_spec.2.2.2.2.1⟩

/-- C10: on an input with exactly one `.` and no `,`, the cleaner leaves
the separators untouched, so the single dot acts as the decimal
separator; in particular `1.5` parses to 1.5, not 15. -/
theorem clean_keeps_single_dot :
    (∀ s : String, s.data.count '.' = 1 → ',' ∉ s.data →
      clean_numeric_string s = parseFloat? (pyStrip (stripSymbols s.data))) ∧
    clean_numeric_string "1.5" = some (3 / 2) := by
  constructor
  · intro s h1 h2
    have hdot : (stripSymbols s.data).count '.' = 1 := by
      rw [count_stripSymbols '.' (by decide) (by decide) (by decide) (by decide)
        (by decide) (by decide) (by decide) (by decide) (by decide)]
      exact h1
    have hcomma : (',' : Char) ∉ stripSymbols s.data := by
      rw [← List.count_eq_zero,
        count_stripSymbols ',' (by decide) (by decide) (by decide) (by decide)
          (by decide) (by decide) (by decide) (by decide) (by decide)]
      exact List.count_eq_zero.mpr h2
    have hmem : ('.' : Char) ∈ stripSymbols s.data := by
      have : 0 < (stripSymbols s.data).count '.' := by omega
      exact List.count_pos_iff.mp this
    have hnot : ¬ (1 : Nat) < (stripSymbols s.data).count '.' := by omega
    unfold clean_numeric_string
    congr 2
    simp [disambiguateSeparators, hmem, hcomma, hnot]
  · decide

theorem clean_keeps_single_dot_witness :
    ("1.5" : String).data.count '.' = 1 ∧
    clean_numeric_string "1.5" = parseFloat? (pyStrip (stripSymbols "1.5".data)) :=
  ⟨by decide, clean_keeps_single_dot.1 "1.5" (by decide) (by decide)⟩

/-- C2 counterexample: in the posta Excel path a record with volume 0
and amount 50 is not dropped, and its derived unit price is the pandas
division's positive infinity, not 0 as the claim states. -/
theorem posta_excel_ppu_counterexample :
    postaExcelPpu none (.fin 50) (.fin 0) = PFloat.posInf ∧
    PFloat.posInf ≠ PFloat.fin 0 ∧
    postaExcelRowDropped (some "2024-03-15") (.fin 0) (.fin 50) = false := by
  decide

/-- C2 amended: a supplied unit price is never recomputed; in the XML
path the derived unit price is amount/volume for nonzero volume and 0
for volume 0; in the posta Excel path the derived unit price is
amount/volume for nonzero volume, but for volume 0 with a positive
amount the unguarded pandas division yields positive infinity instead
of 0. -/
theorem unit_price_amended :
    (∀ i v : ℚ, v ≠ 0 → xmlPpu i v = i / v) ∧
    (∀ i : ℚ, xmlPpu i 0 = 0) ∧
    (∀ p i v, postaExcelPpu (some p) i v = p) ∧
    (∀ i v : ℚ, v ≠ 0 → postaExcelPpu none (.fin i) (.fin v) = .fin (i / v)) ∧
    (∀ i : ℚ, 0 < i → postaExcelPpu none (.fin i) (.fin 0) = PFloat.posInf) := by
  refine ⟨?_, ?_, fun p i v => rfl, ?_, ?_⟩
  · intro i v h
    simp [xmlPpu, h]
  · intro i
    simp [xmlPpu]
  · intro i v h
    simp [postaExcelPpu, PFloat.div, h]
  · intro i h
    simp [postaExcelPpu, PFloat.div, h]

theorem unit_price_amended_witness :
    xmlPpu 100 4 = 100 / 4 ∧
    postaExcelPpu none (.fin 100) (.fin 4) = .fin (100 / 4) ∧
    postaExcelPpu none (.fin 7) (.fin 0) = PFloat.posInf :=
  ⟨unit_price_amended.1 100 4 (by decide),
   unit_price_amended.2.2.2.1 100 4 (by decide),
   unit_price_amended.2.2.2.2 7 (by decide)⟩

/-- C3 counterexample: in the posta Excel path a row whose date and
amount are present but whose volume is missing — only one of the two
fields absent — is dropped, against the claim's keep rule. -/
theorem row_drop_counterexample :
    postaExcelRowDropped (some "2024-03-15") PFloat.nan (.fin 50) = true := by
  decide

/-- C3 amended: in the consolidation path a row is dropped exactly when
volume and amount are both absent — both-present rows (volume 0 and
amount 50 included, which keeps unit price 0) and one-absent rows are
kept — while in the posta Excel path a row is dropped as soon as any of
date, volume or amount is absent. -/
theorem row_drop_amended :
    consolidateRowDropped PFloat.nan PFloat.nan = true ∧
    (∀ i v : ℚ, consolidateRowDropped (.fin i) (.fin v) = false) ∧
    (∀ i : ℚ, consolidateRowDropped (.fin i) PFloat.nan = false ∧
      consolidateRowDropped PFloat.nan (.fin i) = false) ∧
    consolidatePpu none (.fin 50) (.fin 0) = .fin 0 ∧
    (∀ (d : String) (v i : PFloat),
      postaExcelRowDropped (some d) v i = (v.isNan || i.isNan)) ∧
    (∀ v i : PFloat, postaExcelRowDropped none v i = true) := by
  refine ⟨by decide, fun i v => rfl, fun i => ⟨rfl, rfl⟩, by decide, fun d v i => rfl,
    fun v i => rfl⟩

/-- C4 counterexample: in the petrol migration the unrecognized label
`XYZ123` maps to an absent product, and the row is then dropped. -/
theorem product_map_counterexample :
    petrolProductMap "XYZ123" = none ∧
    petrolRowDropped (some "2024-01-01") (some "1") (petrolProductMap "XYZ123")
      (.fin 10) (.fin 100) = true := by
  decide

/-- C4 amended: the posta assembler maps `NS XXI` to `GNC` by an
exact-match table on the trimmed label and keeps the original label
verbatim on a miss; the petrol migration instead maps with no default
and no trim, so any label outside its table becomes absent and the row
is dropped. -/
theorem product_map_amended :
    postaProductMap "NS XXI" = "GNC" ∧
    (∀ x : String, postaProductTable.lookup (pyStripStr x) = none →
      postaProductMap x = x) ∧
    petrolProductMap "NS XXI" = some "GNC" ∧
    (∀ x : String, petrolProductTable.lookup x = none → petrolProductMap x = none) ∧
    (∀ (f p : Option String) (v i : PFloat), petrolRowDropped f p none v i = true) := by
  refine ⟨by decide, ?_, by decide, ?_, ?_⟩
  · intro x h
    simp [postaProductMap, h]
  · intro x h
    simpa [petrolProductMap] using h
  · intro f p v i
    simp [petrolRowDropped]

theorem product_map_amended_witness :
    postaProductMap "XYZ123" = "XYZ123" ∧
    petrolProductMap "SUPER" = none :=
  ⟨product_map_amended.2.1 "XYZ123" (by decide),
   product_map_amended.2.2.2.1 "SUPER" (by decide)⟩

/-- C5 counterexample: the separator split returns the nozzle token
verbatim — `12/1` yields nozzle `1`, which is never converted to the
letter `a` as the claim's numeric-index rule would require. -/
theorem pump_nozzle_counterexample :
    extract_surtidor_manguera "12/1" = some ("12", "1") ∧ ("1" : String) ≠ "a" := by
  decide

/-- C5 amended: a token splitting on `/` into exactly two parts yields
those parts trimmed and otherwise verbatim (no numeric-to-letter nozzle
conversion exists); otherwise a leading digit run is the pump and an
optional trailing letter the nozzle, defaulting to `a`; in particular
`12/a` yields (12, a), `12` yields (12, a) and `3b` yields (3, b). -/
theorem pump_nozzle_amended :
    (∀ (s : String) (a b : List Char), splitOnChar '/' s.data = [a, b] →
      extract_surtidor_manguera s = some (⟨pyStrip a⟩, ⟨pyStrip b⟩)) ∧
    extract_surtidor_manguera "12/a" = some ("12", "a") ∧
    extract_surtidor_manguera "12" = some ("12", "a") ∧
    extract_surtidor_manguera "3b" = some ("3", "b") := by
  refine ⟨?_, by decide, by decide, by decide⟩
  intro s a b h
  simp [extract_surtidor_manguera, h]

theorem pump_nozzle_amended_witness :
    extract_surtidor_manguera "12/a" = some (⟨pyStrip "12".data⟩, ⟨pyStrip "a".data⟩) :=
  pump_nozzle_amended.1 "12/a" "12".data "a".data (by decide)

theorem selectFold_spec :
    ∀ (l : List SheetCandidate) (b r : SheetCandidate),
      l.foldl selectStep (some b) = some r →
      scoreCandidate b ≤ scoreCandidate r ∧
      (∀ d ∈ l, scoreCandidate d ≤ scoreCandidate r) ∧
      (r = b ∨ ∃ pre post, l = pre ++ r :: post ∧
        scoreCandidate b < scoreCandidate r ∧
        ∀ e ∈ pre, scoreCandidate e < scoreCandidate r) := by
  intro l
  induction l with
  | nil =>
    intro b r h
    simp only [List.foldl_nil, Option.some.injEq] at h
    subst h
    exact ⟨Nat.le_refl _, by simp, Or.inl rfl⟩
  | cons c t ih =>
    intro b r h
    simp only [List.foldl_cons] at h
    by_cases hc : scoreCandidate b < scoreCandidate c
    · rw [show selectStep (some b) c = some c by simp [selectStep, hc]] at h
      obtain ⟨h1, h2, h3⟩ := ih c r h
      refine ⟨Nat.le_of_lt (Nat.lt_of_lt_of_le hc h1), ?_, ?_⟩
      · intro d hd
        rcases List.mem_cons.mp hd with hd | hd
        · subst hd; exact h1
        · exact h2 d hd
      · rcases h3 with h3 | ⟨pre, post, hpre, hlt, hall⟩
        · subst h3
          exact Or.inr ⟨[], t, rfl, hc, by simp⟩
        · exact Or.inr ⟨c :: pre, post, by rw [hpre]; rfl,
            Nat.lt_of_lt_of_le hc h1,
            fun e he => (List.mem_cons.mp he).elim
              (fun hec => hec ▸ hlt) (fun het => hall e het)⟩
    · rw [show selectStep (some b) c = some b by simp [selectStep, hc]] at h
      obtain ⟨h1, h2, h3⟩ := ih b r h
      refine ⟨h1, ?_, ?_⟩
      · intro d hd
        rcases List.mem_cons.mp hd with hd | hd
        · subst hd; exact Nat.le_trans (Nat.le_of_not_lt hc) h1
        · exact h2 d hd
      · rcases h3 with h3 | ⟨pre, post, hpre, hlt, hall⟩
        · exact Or.inl h3
        · exact Or.inr ⟨c :: pre, post, by rw [hpre]; rfl, hlt,
            fun e he => (List.mem_cons.mp he).elim
              (fun hec => hec ▸ Nat.lt_of_le_of_lt (Nat.le_of_not_lt hc) hlt)
              (fun het => hall e het)⟩

/-- C6 counterexample: a candidate whose only keyword hit is the pump
family scores 2 under the code (+1 for the pump family, +1 for the
empty-row bonus), not the 3 that the claim's uniform +2-per-family rule
gives. -/
theorem header_score_counterexample :
    scoreCandidate ⟨["SURTIDOR"], [[false]]⟩ = 2 ∧
    scoreClaimed ⟨["SURTIDOR"], [[false]]⟩ = 3 := by
  decide

/-- C6 amended: each candidate is scored +2 per represented keyword
family for date, volume, amount and product but only +1 for the pump
family, +2 for a width of at least 4, and +1 when none of the first five
data rows is entirely empty; the candidate with the maximum score wins
and the first-seen candidate is kept on ties — every candidate placed
before the winner scores strictly less and no candidate scores more. -/
theorem header_candidate_amended :
    (∀ (cands : List SheetCandidate) (best : SheetCandidate),
      selectBest cands = some best →
      ∃ pre post, cands = pre ++ best :: post ∧
        (∀ d ∈ pre, scoreCandidate d < scoreCandidate best) ∧
        (∀ d ∈ cands, scoreCandidate d ≤ scoreCandidate best)) ∧
    scoreCandidate ⟨["SURTIDOR"], [[false]]⟩ = 2 ∧
    scoreCandidate ⟨["FECHA"], [[false]]⟩ = 3 ∧
    scoreCandidate ⟨["FECHA", "VOLUMEN", "IMPORTE", "PRODUCTO"],
      [[false, false, false, false]]⟩ = 11 ∧
    selectBest [⟨["FECHA"], [[false]]⟩, ⟨["FECHA IGUAL"], [[false]]⟩] =
      some ⟨["FECHA"], [[false]]⟩ := by
  refine ⟨?_, by decide, by decide, by decide, by decide⟩
  intro cands best h
  cases cands with
  | nil => simp [selectBest] at h
  | cons c t =>
    have h' : t.foldl selectStep (some c) = some best := by
      simpa [selectBest, List.foldl_cons, selectStep] using h
    obtain ⟨h1, h2, h3⟩ := selectFold_spec t c best h'
    rcases h3 with h3 | ⟨pre, post, hpre, hlt, hall⟩
    · subst h3
      refine ⟨[], t, rfl, by simp, ?_⟩
      intro d hd
      rcases List.mem_cons.mp hd with hd | hd
      · subst hd; exact Nat.le_refl _
      · exact h2 d hd
    · refine ⟨c :: pre, post, by rw [hpre]; rfl, ?_, ?_⟩
      · intro d hd
        rcases List.mem_cons.mp hd with hd | hd
        · subst hd; exact hlt
        · exact hall d hd
      · intro d hd
        rcases List.mem_cons.mp hd with hd | hd
        · subst hd; exact h1
        · exact h2 d hd

theorem header_candidate_amended_witness :
    ∃ pre post,
      ([⟨["SURTIDOR"], [[false]]⟩, ⟨["FECHA"], [[false]]⟩] : List SheetCandidate) =
        pre ++ (⟨["FECHA"], [[false]]⟩ : SheetCandidate) :: post ∧
      (∀ d ∈ pre, scoreCandidate d < scoreCandidate ⟨["FECHA"], [[false]]⟩) ∧
      (∀ d ∈ ([⟨["SURTIDOR"], [[false]]⟩, ⟨["FECHA"], [[false]]⟩] : List SheetCandidate),
        scoreCandidate d ≤ scoreCandidate ⟨["FECHA"], [[false]]⟩) :=
  header_candidate_amended.1 _ _ (by decide)

theorem rowHasHeader_of_two_hits (row : List (Option String)) (h : 2 ≤ headerHits row) :
    rowHasHeader row = true := by
  unfold headerHits at h
  have hne : row.filter cellIsHeader ≠ [] := by
    intro he
    rw [he] at h
    simp at h
  obtain ⟨x, hx⟩ := List.exists_mem_of_ne_nil _ hne
  obtain ⟨hxr, hxc⟩ := List.mem_filter.mp hx
  exact List.any_eq_true.mpr ⟨x, hxr, hxc⟩

theorem findHeaderIdx_le_of_hit :
    ∀ (g : List (List (Option String))) (i : Nat) (row : List (Option String)),
      g[i]? = some row → rowHasHeader row = true →
      ∃ j, findHeaderIdx g = some j ∧ j ≤ i := by
  intro g
  induction g with
  | nil => intro i row h; simp at h
  | cons r t ih =>
    intro i row h hrow
    by_cases hr : rowHasHeader r
    · exact ⟨0, by simp [findHeaderIdx, hr], Nat.zero_le i⟩
    · cases i with
      | zero =>
        simp only [List.getElem?_cons_zero, Option.some.injEq] at h
        subst h
        rw [hrow] at hr
        exact absurd rfl hr
      | succ n =>
        simp only [List.getElem?_cons_succ] at h
        obtain ⟨j, hj, hle⟩ := ih n row h hrow
        exact ⟨j + 1, by simp [findHeaderIdx, hr, hj], Nat.succ_le_succ hle⟩

theorem findHeaderIdx_eq_none :
    ∀ g : List (List (Option String)),
      (∀ row ∈ g, rowHasHeader row = false) → findHeaderIdx g = none := by
  intro g
  induction g with
  | nil => intro _; rfl
  | cons r t ih =>
    intro h
    have hr := h r (List.mem_cons_self r t)
    have ht := ih fun row hrow => h row (List.mem_cons_of_mem r hrow)
    simp [findHeaderIdx, hr, ht]

/-- C7: the header locator never selects a row index past the first row
with at least two header-vocabulary hits, and when no row of the grid
matches any header token it returns row index 0 instead of failing. -/
theorem find_data_start_spec :
    (∀ (grid : List (List (Option String))) (i : Nat) (row : List (Option String)),
      grid[i]? = some row → 2 ≤ headerHits row → find_data_start grid ≤ i) ∧
    (∀ grid : List (List (Option String)),
      (∀ row ∈ grid, rowHasHeader row = false) → find_data_start grid = 0) := by
  constructor
  · intro grid i row h hhits
    obtain ⟨j, hj, hle⟩ :=
      findHeaderIdx_le_of_hit grid i row h (rowHasHeader_of_two_hits row hhits)
    unfold find_data_start
    rw [hj]
    exact hle
  · intro grid h
    unfold find_data_start
    rw [findHeaderIdx_eq_none grid h]
    rfl

theorem find_data_start_spec_witness :
    find_data_start [[some "x"], [some "Fecha", some "Volumen"]] ≤ 1 ∧
    find_data_start [[some "junk"], [none, some "y"]] = 0 :=
  ⟨find_data_start_spec.1 _ 1 [some "Fecha", some "Volumen"] (by decide) (by decide),
   find_data_start_spec.2 _ (by decide)⟩

/-- C8: the pipeline output is a pure function of the input file set,
and the replace policy overwrites the store with it, so running the
pipeline a second time over the unchanged file set persists exactly the
corpus of the first run. -/
theorem pipeline_replace_idempotent
    (files : List (List (List (Option Nat × Option String)) × String))
    (store : List Despacho) :
    persistReplace (persistReplace store (runPostaPipeline files)) (runPostaPipeline files) =
      persistReplace store (runPostaPipeline files) :=
  rfl

/-- C9 counterexample: with no filters, `get_despachos` returns the
stored rows in table order — here a date-descending pair comes back
date-descending, not ordered by date. -/
theorem get_despachos_counterexample :
    get_despachos
      [⟨"2024-02-01", "00:00", "1", "GNC", 1, 1, 1, "Petrol"⟩,
       ⟨"2024-01-01", "00:00", "1", "GNC", 1, 1, 1, "Petrol"⟩]
      none none none none none =
      [⟨"2024-02-01", "00:00", "1", "GNC", 1, 1, 1, "Petrol"⟩,
       ⟨"2024-01-01", "00:00", "1", "GNC", 1, 1, 1, "Petrol"⟩] ∧
    fechaSorted
      [⟨"2024-02-01", "00:00", "1", "GNC", 1, 1, 1, "Petrol"⟩,
       ⟨"2024-01-01", "00:00", "1", "GNC", 1, 1, 1, "Petrol"⟩] = false := by
  decide

/-- C9 amended: the query returns exactly the records matching every
supplied filter — branch, product (one value or a list), date range and
pump id (one value or a list) — in the table's stored order (the query
has no ORDER BY clause, so no date ordering is applied). -/
theorem get_despachos_amended :
    (∀ (db : List Despacho) (org : Option String) (producto : Option StrFilter)
        (startDate endDate : Option String) (pico : Option StrFilter) (r : Despacho),
      r ∈ get_despachos db org producto startDate endDate pico ↔
        r ∈ db ∧ matchesOrganization org r = true ∧
        matchesStrFilter producto r.producto = true ∧
        matchesDateRange startDate endDate r = true ∧
        matchesStrFilter pico r.pico = true) ∧
    (∀ (db : List Despacho) (org : Option String) (producto : Option StrFilter)
        (startDate endDate : Option String) (pico : Option StrFilter),
      List.Sublist (get_despachos db org producto startDate endDate pico) db) := by
  constructor
  · intro db org producto sd ed pico r
    simp [get_despachos, List.mem_filter, and_assoc]
  · intro db org producto sd ed pico
    exact List.filter_sublist db
